import Mathlib

/-!
Verification of the OpenCanvas context-and-retrieval engine.

This file gives a shallow embedding, in Lean, of the parts of the codebase
that the verified properties are about:

* `chunkText` from `src/utils/document-parser.ts` (text is modelled as
  `List Char`, JavaScript numbers used as counts as `Int`/`Nat`);
* the `VectorStore` class (`search`, `cosineSimilarity`) from
  `src/services/embeddings/vector-store.ts`, with embedding coordinates
  modelled as real numbers and a thrown `Error` modelled as `Except.error`;
* the RAG merge step, the donor-context transcript builder and the streaming
  accumulator from the canvas chat node component (`handleSend`,
  `getContextFromDonorNodes`);
* `updateLastMessage` from the chat store and the streaming loop of the chat
  mode component;
* edge-kind inference in `handleConnect` and the canvas store
  (`saveCanvas`, `deleteNode`, `loadSession`) with the IndexedDB-backed
  persistent store modelled as an association list keyed by session id.

JavaScript's `x || d` default on a string (which replaces both `undefined`
and `""`) is modelled by `jsOrString`, and on a number (which replaces both
`undefined` and `0`) by `jsOrNat`.  `Date.now()` is passed in explicitly as
a `now : Nat` parameter wherever the code reads the clock.
-/

/-- JS `x || default` for an optional string: `undefined` and `""` are falsy. -/
def jsOrString (s : Option String) (d : String) : String :=
  match s with
  | some t => if t = "" then d else t
  | none => d

/-- JS `x || default` for an optional number used as a count: `undefined` and `0` are falsy. -/
def jsOrNat (n : Option Nat) (d : Nat) : Nat :=
  match n with
  | some m => if m = 0 then d else m
  | none => d

/-! ## `chunkText` (src/utils/document-parser.ts, lines 41-92) -/

/-- Whitespace as removed by JavaScript `String.prototype.trim` (the
characters that can actually occur in the modelled texts). -/
def jsWhitespace (c : Char) : Bool :=
  c = ' ' ∨ c = '\t' ∨ c = '\n' ∨ c = '\r'

/-- `String.prototype.trim`: drop whitespace from both ends. -/
def jsTrim (l : List Char) : List Char :=
  ((l.dropWhile jsWhitespace).reverse.dropWhile jsWhitespace).reverse

/-- `text.slice(start, stop)` for `start ≤ stop` within bounds. -/
def jsSlice (l : List Char) (start stop : Nat) : List Char :=
  (l.drop start).take (stop - start)

/-- The `nextStart` computation of the `chunkText` loop:
`nextStart = end - overlap; if (nextStart <= start) start = end else start = nextStart`. -/
def chunkNextStart (start e overlap : Nat) : Nat :=
  let nextStart : Int := (e : Int) - (overlap : Int)
  if nextStart ≤ (start : Int) then e else nextStart.toNat

/-- The `while` loop of `chunkText`.  `iterations` counts completed loop
entries so far; the loop breaks once `iterations + 1 > MAX_CHUNKS * 2`,
stops collecting at `MAX_CHUNKS = 10000` chunks, and advances `start`
strictly on every iteration (which is what the positivity hypothesis on
`chunkSize` guarantees). -/
def chunkLoop (text : List Char) (chunkSize overlap : Nat) (hcs : 0 < chunkSize)
    (start iterations : Nat) (chunks : List (List Char)) : List (List Char) :=
  if h : start < text.length ∧ chunks.length < 10000 then
    if iterations + 1 > 20000 then chunks
    else
      let e := min (start + chunkSize) text.length
      let chunk := jsTrim (jsSlice text start e)
      let chunks' := if 0 < chunk.length then chunks ++ [chunk] else chunks
      let start' := chunkNextStart start e overlap
      if start' ≥ text.length then chunks'
      else chunkLoop text chunkSize overlap hcs start' (iterations + 1) chunks'
  else chunks
termination_by text.length - start
decreasing_by
  have hse : start < min (start + chunkSize) text.length :=
    lt_min (by omega) h.1
  have hadv : start < chunkNextStart start (min (start + chunkSize) text.length) overlap := by
    unfold chunkNextStart
    simp only []
    split
    · exact hse
    · next hlt =>
      push_neg at hlt
      omega
  exact Nat.sub_lt_sub_left h.1 hadv

/-- Parameter sanitization of `chunkText`: `if (chunkSize <= 0) chunkSize = 1000`. -/
def sanitizedChunkSize (chunkSize : Int) : Nat :=
  (if chunkSize ≤ 0 then 1000 else chunkSize).toNat

/-- Parameter sanitization of `chunkText`:
`if (overlap < 0) overlap = 0; if (overlap >= chunkSize) overlap = Math.floor(chunkSize * 0.2)`
(the floor of a fifth of the already-sanitized chunk size). -/
def sanitizedOverlap (chunkSize overlap : Int) : Nat :=
  let cs := sanitizedChunkSize chunkSize
  let ov : Int := if overlap < 0 then 0 else overlap
  if (cs : Int) ≤ ov then cs / 5 else ov.toNat

/-- `chunkText(text, chunkSize, overlap)` (document-parser.ts). -/
def chunkText (text : List Char) (chunkSize overlap : Int) : List (List Char) :=
  chunkLoop text (sanitizedChunkSize chunkSize) (sanitizedOverlap chunkSize overlap)
    (by unfold sanitizedChunkSize; split <;> omega) 0 0 []

/-! ## `VectorStore` (src/services/embeddings/vector-store.ts) -/

/-- A stored document chunk (`DocumentChunk`, storage types).  `embedding` is
optional; embedding coordinates are modelled as real numbers.  The metadata
map is opaque to every verified operation and is modelled as string pairs. -/
structure DocumentChunk where
  id : String
  content : String
  embedding : Option (List ℝ)
  metadata : List (String × String)

namespace VectorStore

/-- `cosineSimilarity(a, b)` (vector-store.ts, lines 107-126): throws on a
length mismatch, otherwise accumulates the dot product and the two squared
norms over the common indices and returns `0` when the denominator
`sqrt(normA) * sqrt(normB)` is `0`. -/
noncomputable def cosineSimilarity (a b : List ℝ) : Except String ℝ :=
  if a.length ≠ b.length then .error "Vectors must have the same length"
  else
    let dotProduct := (List.zipWith (fun x y => x * y) a b).sum
    let normA := (a.map fun x => x * x).sum
    let normB := (b.map fun x => x * x).sum
    let denominator := Real.sqrt normA * Real.sqrt normB
    if denominator = 0 then .ok 0 else .ok (dotProduct / denominator)

/-- A chunk is eligible for search iff it has a non-empty embedding
(`if (!chunk.embedding || chunk.embedding.length === 0) continue`). -/
def hasEmbedding (c : DocumentChunk) : Bool :=
  match c.embedding with
  | some e => e.length != 0
  | none => false

/-- The scoring loop of `search`: skip chunks without a (non-empty)
embedding, score the others in store order; an exception thrown by
`cosineSimilarity` propagates out of the whole loop. -/
noncomputable def scoreChunks (q : List ℝ) :
    List DocumentChunk → Except String (List (DocumentChunk × ℝ))
  | [] => .ok []
  | c :: cs =>
    match c.embedding with
    | none => scoreChunks q cs
    | some emb =>
      if emb.length = 0 then scoreChunks q cs
      else do
        let score ← cosineSimilarity q emb
        let rest ← scoreChunks q cs
        pure ((c, score) :: rest)

/-- Descending-score comparator used by
`results.sort((a, b) => b.score - a.score)`. -/
def scoreDesc (a b : DocumentChunk × ℝ) : Prop := b.2 ≤ a.2

noncomputable instance : DecidableRel scoreDesc := fun a b => Real.decidableLE b.2 a.2

/-- `search(queryEmbedding, topK)` (vector-store.ts, lines 86-102): empty
store short-circuits to `[]`; otherwise score eligible chunks, sort by
descending score and keep the first `topK`. -/
noncomputable def search (chunks : List DocumentChunk) (queryEmbedding : List ℝ)
    (topK : Nat) : Except String (List (DocumentChunk × ℝ)) :=
  if chunks.length = 0 then .ok []
  else do
    let results ← scoreChunks queryEmbedding chunks
    pure ((results.insertionSort scoreDesc).take topK)

end VectorStore

/-- The Euclidean norm `‖a‖ = sqrt (Σ aᵢ²)` used by the specification to
state the cosine-similarity formula. -/
noncomputable def euclidNorm (a : List ℝ) : ℝ :=
  Real.sqrt ((a.map fun x => x * x).sum)

/-- Spec-side dot product `Σ aᵢbᵢ`. -/
def dotProductSpec (a b : List ℝ) : ℝ := (List.zipWith (fun x y => x * y) a b).sum

/-! ## RAG retrieval and merge (ChatNode `handleSend`) -/

/-- Stored vector-store record (`VectorStoreData`, storage types). -/
structure VectorStoreData where
  id : String
  name : String
  documents : List DocumentChunk
  embeddingProviderTag : Option String
  embeddingModelTag : Option String
  createdAt : Nat

/-- One aggregated retrieval result as pushed onto `allResults` in
`handleSend`: content, score and the originating store's display name
(`storeData.name || memoryNodeId`). -/
structure RagResult where
  content : String
  score : ℝ
  source : String

/-- Descending-score comparator for `allResults.sort((a, b) => b.score - a.score)`. -/
def ragScoreDesc (a b : RagResult) : Prop := b.score ≤ a.score

noncomputable instance : DecidableRel ragScoreDesc := fun a b => Real.decidableLE b.score a.score

/-- The vector-store table of the persistent store, keyed by memory-node id. -/
def VectorStoreTable := List (String × VectorStoreData)

/-- `storage.getVectorStore(storeId)`. -/
def getVectorStore (tbl : VectorStoreTable) (storeId : String) : Option VectorStoreData :=
  (tbl.find? fun kv => kv.1 == storeId).map fun kv => kv.2

/-- One iteration of the per-memory-node RAG loop in `handleSend` (lines
689-764): look the store up, run a top-3 search with the single query
embedding, and turn each hit into a `RagResult`.  A missing store, or an
exception thrown inside the `try` block (e.g. a dimension mismatch in
`search`), contributes nothing for that node. -/
noncomputable def queryMemoryNode (tbl : VectorStoreTable) (memoryNodeId : String)
    (queryEmbedding : List ℝ) : List RagResult :=
  match getVectorStore tbl memoryNodeId with
  | none => []
  | some storeData =>
    match VectorStore.search storeData.documents queryEmbedding 3 with
    | .error _ => []
    | .ok results =>
      results.map fun r =>
        ⟨r.1.content, r.2, jsOrString (some storeData.name) memoryNodeId⟩

/-- The merge step of `handleSend` (lines 766-768): concatenate all
per-index results in attachment order, sort globally by descending score,
and keep the top 5 overall. -/
noncomputable def ragTopResults (tbl : VectorStoreTable) (attachedMemoryNodes : List String)
    (queryEmbedding : List ℝ) : List RagResult :=
  let allResults := (attachedMemoryNodes.map fun mid => queryMemoryNode tbl mid queryEmbedding).flatten
  (allResults.insertionSort ragScoreDesc).take 5

/-! ## Messages, nodes and edges -/

/-- Message roles (`'system' | 'user' | 'assistant'`). -/
inductive Role where
  | system
  | user
  | assistant
deriving DecidableEq, Repr

/-- A stored chat message (`Message`, storage types). -/
structure Message where
  role : Role
  content : String
  timestamp : Nat
deriving DecidableEq, Repr

/-- A `{role, content}` entry of the array sent to the LLM provider. -/
structure LLMMessage where
  role : Role
  content : String
deriving DecidableEq, Repr

/-- One chunk of a streamed completion (`LLMStreamChunk`). -/
structure LLMStreamChunk where
  content : String
  done : Bool
deriving DecidableEq, Repr

/-- Node kinds (`'chat' | 'memory'`). -/
inductive NType where
  | chat
  | memory
deriving DecidableEq, Repr

/-- Edge kinds (`'context' | 'rag'`). -/
inductive EdgeType where
  | context
  | rag
deriving DecidableEq, Repr

/-- The `data` payload of a canvas node (`ChatNodeData`); only the fields the
verified operations read are modelled, each optional as in the source. -/
structure NodeData where
  title : Option String
  messages : Option (List Message)
  attachedMemoryNodes : Option (List String)
  systemPrompt : Option String
deriving DecidableEq, Repr

/-- A live React Flow node as held in the canvas store: `type`, `position`
and the style dimensions may all be absent and are defaulted defensively by
the code that reads them. -/
structure RFNode where
  id : String
  type : Option NType
  position : Option (Int × Int)
  width : Option Nat
  height : Option Nat
  data : NodeData
deriving DecidableEq, Repr

/-- A live React Flow edge: `type` may be absent (`e.type || 'context'`). -/
structure RFEdge where
  id : String
  source : String
  target : String
  type : Option EdgeType
deriving DecidableEq, Repr

/-! ## Donor-context transcript (ChatNode, `getContextFromDonorNodes` and
`handleSend` lines 810-880) -/

/-- One collected donor entry (`{ nodeId, nodeTitle, messages }`). -/
structure DonorInfo where
  nodeId : String
  nodeTitle : String
  messages : List Message
deriving DecidableEq, Repr

/-- `getContextFromDonorNodes` (ChatNode, lines 44-142): take the incoming
edges of the receiver, keep those typed `context`, resolve each source node,
skip missing sources and non-chat sources, and collect
`{ nodeId, nodeTitle: title || 'Untitled', messages: messages || [] }`
in edge order. -/
def getContextFromDonorNodes (nodes : List RFNode) (edges : List RFEdge)
    (receiverId : String) : List DonorInfo :=
  let allIncomingEdges := edges.filter fun e => e.target == receiverId
  let incomingEdges := allIncomingEdges.filter fun e => e.type == some EdgeType.context
  incomingEdges.filterMap fun e =>
    match nodes.find? fun n => n.id == e.source with
    | none => none
    | some donorNode =>
      if donorNode.type ≠ some NType.chat then none
      else some ⟨donorNode.id, jsOrString donorNode.data.title "Untitled",
        donorNode.data.messages.getD []⟩

/-- The labeled header pushed before a donor's messages. -/
def donorHeader (title : String) : LLMMessage :=
  ⟨Role.system, "Context from \"" ++ title ++ "\" (donor node):"⟩

/-- The separator pushed between two donor blocks. -/
def donorSeparator : LLMMessage := ⟨Role.system, "---"⟩

/-- The marker pushed after the last donor block. -/
def endOfContextMarker : LLMMessage :=
  ⟨Role.system, "--- End of donor context. Continue the conversation below. ---"⟩

/-- A donor's forwarded messages: only `user` and `assistant` roles are kept
(donor `system` messages are skipped), in original order. -/
def donorForwarded (msgs : List Message) : List LLMMessage :=
  msgs.filterMap fun m =>
    if m.role = Role.user ∨ m.role = Role.assistant then some ⟨m.role, m.content⟩ else none

/-- The donor blocks of the transcript: each donor's header followed by its
forwarded messages, with a separator between consecutive donors (none after
the last). -/
def donorBlocks : List DonorInfo → List LLMMessage
  | [] => []
  | [d] => donorHeader d.nodeTitle :: donorForwarded d.messages
  | d :: rest =>
    (donorHeader d.nodeTitle :: donorForwarded d.messages) ++ donorSeparator :: donorBlocks rest

/-- The system message wrapping a non-empty RAG context block. -/
def ragSystemMessage (ragContext : String) : LLMMessage :=
  ⟨Role.system, "The following context is retrieved from attached memory nodes:" ++
    ragContext ++ "\n\nUse this context to inform your response." ⟩

/-- Assembly of `llmMessages` in `handleSend` (lines 810-880): optional
system prompt, then (if any donors) the donor blocks followed by the
end-of-context marker, then the optional RAG block, then the receiver's own
conversation. -/
def buildLLMMessages (systemPrompt : String) (donors : List DonorInfo)
    (ragContext : String) (updatedMessages : List Message) : List LLMMessage :=
  (if systemPrompt ≠ "" then [⟨Role.system, systemPrompt⟩] else []) ++
  (if donors ≠ [] then donorBlocks donors ++ [endOfContextMarker] else []) ++
  (if ragContext ≠ "" then [ragSystemMessage ragContext] else []) ++
  updatedMessages.map fun m => ⟨m.role, m.content⟩

/-! ## Edge creation (`handleConnect`, canvas flow component lines 472-546) -/

/-- The id string `edge-SOURCE-TARGET-NOW` built for a new edge. -/
def mkEdgeId (source target : String) (now : Nat) : String :=
  "edge-" ++ source ++ "-" ++ target ++ "-" ++ toString now

/-- `handleConnect`: validate the connection, look both endpoints up, infer
the edge kind (`rag` iff memory → chat, else `context`) and append the new
edge; a missing endpoint id or an unknown endpoint node leaves the edge list
unchanged. -/
def handleConnect (nodes : List RFNode) (edges : List RFEdge)
    (source target : Option String) (now : Nat) : List RFEdge :=
  match source, target with
  | some s, some t =>
    match nodes.find? (fun n => n.id == s), nodes.find? (fun n => n.id == t) with
    | some sourceNode, some targetNode =>
      let edgeType :=
        if sourceNode.type = some NType.memory ∧ targetNode.type = some NType.chat
        then EdgeType.rag else EdgeType.context
      edges ++ [⟨mkEdgeId s t now, s, t, some edgeType⟩]
    | _, _ => edges
  | _, _ => edges

/-! ## Persistent canvas-session data (storage types) and the canvas store -/

/-- A persisted canvas node (`CanvasNode`). -/
structure CanvasNode where
  id : String
  type : NType
  position : Int × Int
  width : Nat
  height : Nat
  data : NodeData
deriving DecidableEq, Repr

/-- A persisted canvas edge (`CanvasEdge`); `type` is optional here because
records written before edge-kind inference existed may lack it. -/
structure CanvasEdge where
  id : String
  source : String
  target : String
  type : Option EdgeType
deriving DecidableEq, Repr

/-- A persisted viewport. -/
structure Viewport where
  x : Int
  y : Int
  zoom : Int
deriving DecidableEq, Repr

/-- A persisted graph snapshot (`CanvasState`). -/
structure CanvasState where
  nodes : List CanvasNode
  edges : List CanvasEdge
  viewport : Viewport
  version : Nat
deriving DecidableEq, Repr

/-- A persisted session record (`CanvasSessionData`). -/
structure CanvasSessionData where
  id : String
  title : String
  state : CanvasState
  createdAt : Nat
  updatedAt : Nat
deriving DecidableEq, Repr

/-- The canvas-session table of the persistent store, keyed by session id. -/
def SessionTable := List (String × CanvasSessionData)

/-- `storage.getCanvasSession(sessionId)`. -/
def getCanvasSession (tbl : SessionTable) (sessionId : String) : Option CanvasSessionData :=
  (List.find? (fun kv => kv.1 == sessionId) tbl).map fun kv => kv.2

/-- `storage.saveCanvasSession(sessionId, data)`: upsert by key. -/
def saveCanvasSession (tbl : SessionTable) (sessionId : String)
    (data : CanvasSessionData) : SessionTable :=
  if (List.find? (fun kv => kv.1 == sessionId) tbl).isSome then
    List.map (fun kv => if kv.1 == sessionId then (sessionId, data) else kv) tbl
  else
    List.append tbl [(sessionId, data)]

/-- `storage.getAllCanvasSessions()`. -/
def getAllCanvasSessions (tbl : SessionTable) : List CanvasSessionData :=
  List.map (fun kv => kv.2) tbl

/-- `sessions.sort((a, b) => b.updatedAt - a.updatedAt)`. -/
def sortSessionsByUpdatedDesc (sessions : List CanvasSessionData) : List CanvasSessionData :=
  sessions.insertionSort fun a b => b.updatedAt ≤ a.updatedAt

/-- The in-memory canvas store state (`CanvasStoreState`, canvasStore). -/
structure CanvasStore where
  nodes : List RFNode
  edges : List RFEdge
  viewport : Viewport
  initialized : Bool
  currentSessionId : Option String
  sessions : List CanvasSessionData
  isLoadingSession : Bool
  isCreatingSession : Bool
deriving DecidableEq, Repr

/-- The `Node[] → CanvasNode[]` conversion inside `saveCanvas`:
`type: node.type || 'chat'`, defensive position default, and
`(node.style?.width as number) || 400` / `... || 500` for the size. -/
def toCanvasNode (node : RFNode) : CanvasNode :=
  ⟨node.id, node.type.getD NType.chat, node.position.getD (0, 0),
    jsOrNat node.width 400, jsOrNat node.height 500, node.data⟩

/-- The `Edge[] → CanvasEdge[]` conversion inside `saveCanvas`:
`type: edge.type || 'context'`. -/
def toCanvasEdge (edge : RFEdge) : CanvasEdge :=
  ⟨edge.id, edge.source, edge.target, some (edge.type.getD EdgeType.context)⟩

/-- `saveCanvas` (canvasStore, lines 325-421).  In order: bail out while a
session is being loaded; convert the live graph; bail out on an empty
canvas; bail out when no session exists; merge with the existing session
record (in-memory list first, then storage) keeping `createdAt` and title;
write the record with `updatedAt = now` and refresh the session list. -/
def saveCanvas (now : Nat) (st : CanvasStore) (tbl : SessionTable) :
    CanvasStore × SessionTable :=
  if st.isLoadingSession then (st, tbl)
  else
    let canvasNodes := st.nodes.map toCanvasNode
    let canvasEdges := st.edges.map toCanvasEdge
    let canvasState : CanvasState := ⟨canvasNodes, canvasEdges, st.viewport, 1⟩
    if st.nodes.length = 0 ∧ st.edges.length = 0 then (st, tbl)
    else
      match st.currentSessionId with
      | none => (st, tbl)
      | some sessionId =>
        let session : Option CanvasSessionData :=
          match st.sessions.find? fun s => s.id == sessionId with
          | some s => some s
          | none => getCanvasSession tbl sessionId
        let updatedSession : CanvasSessionData :=
          ⟨sessionId, jsOrString (session.map fun s => s.title) "New Canvas", canvasState,
            jsOrNat (session.map fun s => s.createdAt) now, now⟩
        let tbl' := saveCanvasSession tbl sessionId updatedSession
        let updatedSessions := getAllCanvasSessions tbl'
        ({ st with sessions := sortSessionsByUpdatedDesc updatedSessions,
                   currentSessionId := some sessionId }, tbl')

/-- `deleteNode(id)` (canvasStore, lines 470-479): drop the node and every
edge touching it, then save immediately. -/
def deleteNode (nodeId : String) (now : Nat) (st : CanvasStore) (tbl : SessionTable) :
    CanvasStore × SessionTable :=
  let st' := { st with
    nodes := st.nodes.filter fun node => node.id != nodeId,
    edges := st.edges.filter fun edge => edge.source != nodeId && edge.target != nodeId }
  saveCanvas now st' tbl

/-- The `CanvasNode → Node` conversion inside `loadSession`. -/
def toRFNode (node : CanvasNode) : RFNode :=
  ⟨node.id, some node.type, some node.position,
    some (jsOrNat (some node.width) 400), some (jsOrNat (some node.height) 500), node.data⟩

/-- The per-edge reclassification inside `loadSession` (lines 578-605): an
edge whose stored kind is missing or `context` and whose endpoints resolve
to a memory source and a chat target is loaded as `rag`; every other edge is
loaded with `edge.type || 'context'`. -/
def loadEdge (storedNodes : List CanvasNode) (e : CanvasEdge) : RFEdge :=
  if e.type = none ∨ e.type = some EdgeType.context then
    let sourceNode := storedNodes.find? fun n => n.id == e.source
    let targetNode := storedNodes.find? fun n => n.id == e.target
    if (sourceNode.map fun n => n.type) = some NType.memory ∧
       (targetNode.map fun n => n.type) = some NType.chat then
      ⟨e.id, e.source, e.target, some EdgeType.rag⟩
    else ⟨e.id, e.source, e.target, some (e.type.getD EdgeType.context)⟩
  else ⟨e.id, e.source, e.target, some (e.type.getD EdgeType.context)⟩

/-- `loadSession(sessionId)` (canvasStore, lines 544-639), up to the point
where the deferred timer clears the loading flag: set `isLoadingSession`,
read the session, restore the graph (reclassifying edges) and the session
list.  It only reads from the persistent store, never writes it; on success
the loading flag is still set (a separate deferred step clears it). -/
def loadSession (sessionId : String) (st : CanvasStore) (tbl : SessionTable) :
    CanvasStore × SessionTable :=
  let st0 := { st with isLoadingSession := true }
  match getCanvasSession tbl sessionId with
  | some session =>
    let canvasState := session.state
    let reactFlowNodes := canvasState.nodes.map toRFNode
    let reactFlowEdges := canvasState.edges.map (loadEdge canvasState.nodes)
    let sessions := getAllCanvasSessions tbl
    ({ st0 with
        nodes := reactFlowNodes,
        edges := reactFlowEdges,
        viewport := canvasState.viewport,
        currentSessionId := some sessionId,
        sessions := sortSessionsByUpdatedDesc sessions }, tbl)
  | none => ({ st0 with isLoadingSession := false }, tbl)

/-- The deferred `setTimeout` callback that ends the loading window. -/
def clearLoadingFlag (st : CanvasStore) : CanvasStore :=
  { st with isLoadingSession := false }

/-! ## Streaming accumulation (ChatNode `handleSend` lines 892-906, chat
store `updateLastMessage`, ChatMode lines 163-173) -/

/-- Concatenation of a list of strings (the value of `fullContent` after a
run of `fullContent += chunk.content` steps). -/
def concatAll (l : List String) : String := l.foldl (fun a b => a ++ b) ""

/-- The canvas chat node's streaming loop: starting from accumulator
`fullContent`, each chunk with truthy `content` appends it to the
accumulator and stores `updatedMessages ++ [assistant snapshot]`; a chunk
with `done` set breaks after that.  The result is the list of successive
`setMessages` payloads (the stored message-list snapshots). -/
def canvasStreamStates (updatedMessages : List Message) (now : Nat) :
    List LLMStreamChunk → String → List (List Message)
  | [], _ => []
  | c :: rest, fullContent =>
    if c.content ≠ "" then
      let full' := fullContent ++ c.content
      let snapshot := updatedMessages ++ [⟨Role.assistant, full', now⟩]
      if c.done then [snapshot]
      else snapshot :: canvasStreamStates updatedMessages now rest full'
    else
      if c.done then [] else canvasStreamStates updatedMessages now rest fullContent

/-- The chat-store record (`ChatData`), restricted to the fields the
verified operations touch. -/
structure ChatData where
  id : String
  title : String
  messages : List Message
  createdAt : Nat
  updatedAt : Nat
deriving DecidableEq, Repr

/-- `updateLastMessage(content)` (chatStore, lines 140-166): if the last
message is an assistant message, replace its `content` field (keeping its
timestamp); otherwise push a fresh assistant message; either way bump
`updatedAt`. -/
def updateLastMessage (content : String) (now : Nat) (chat : ChatData) : ChatData :=
  let messages := chat.messages
  let messages' :=
    match messages.getLast? with
    | some lastMsg =>
      if lastMsg.role = Role.assistant then
        messages.dropLast ++ [{ lastMsg with content := content }]
      else messages ++ [⟨Role.assistant, content, now⟩]
    | none => messages ++ [⟨Role.assistant, content, now⟩]
  { chat with messages := messages', updatedAt := now }

/-- The chat-mode streaming loop (ChatMode, lines 163-173): each chunk with
truthy `content` is appended to `fullContent` and the accumulated string is
passed to `updateLastMessage`; the result is the list of successive chat
states. -/
def chatModeStreamStates (now : Nat) :
    List LLMStreamChunk → String → ChatData → List ChatData
  | [], _, _ => []
  | c :: rest, fullContent, chat =>
    if c.content ≠ "" then
      let full' := fullContent ++ c.content
      let chat' := updateLastMessage full' now chat
      if c.done then [chat']
      else chat' :: chatModeStreamStates now rest full' chat'
    else
      if c.done then [] else chatModeStreamStates now rest fullContent chat

/-! ## Concrete stores used to exercise the search and merge operations.

All embeddings are two-dimensional vectors of norm 10 of the form
`[b₁, sqrt (100 - b₁²)]`, so against the query `[1, 0]` (norm 1) the cosine
similarity is exactly `b₁ / 10`. -/

/-- A chunk scoring 0.9 against the query `[1, 0]`. -/
noncomputable def chunkA : DocumentChunk := ⟨"a", "alpha", some [9, Real.sqrt 19], []⟩

/-- A chunk scoring 0.4 against the query `[1, 0]`. -/
noncomputable def chunkB : DocumentChunk := ⟨"b", "beta", some [4, Real.sqrt 84], []⟩

/-- A chunk scoring 0.2 against the query `[1, 0]`. -/
noncomputable def chunkC : DocumentChunk := ⟨"c", "gamma", some [2, Real.sqrt 96], []⟩

/-- A chunk scoring 0.8 against the query `[1, 0]`. -/
noncomputable def chunkD : DocumentChunk := ⟨"d", "delta", some [8, 6], []⟩

/-- A chunk scoring 0.3 against the query `[1, 0]`. -/
noncomputable def chunkE : DocumentChunk := ⟨"e", "epsilon", some [3, Real.sqrt 91], []⟩

/-- A chunk with no embedding (skipped by `search`). -/
def chunkNoEmb : DocumentChunk := ⟨"n", "nu", none, []⟩

/-- First memory node's store: per-index scores [0.9, 0.4, 0.2]. -/
noncomputable def storeOne : VectorStoreData := ⟨"m1", "Store One", [chunkA, chunkB, chunkC], none, none, 0⟩

/-- Second memory node's store: per-index scores [0.8, 0.3]. -/
noncomputable def storeTwo : VectorStoreData := ⟨"m2", "Store Two", [chunkD, chunkE], none, none, 0⟩

/-- Vector-store table holding the two memory nodes. -/
noncomputable def ragTable : VectorStoreTable := [("m1", storeOne), ("m2", storeTwo)]

/-- A small chunk list with one embedded and one unembedded chunk. -/
noncomputable def searchDemoChunks : List DocumentChunk := [chunkD, chunkNoEmb]

/-! # Theorems -/

/-! ## Canvas persistence helpers -/

theorem saveCanvas_of_isLoading (now : Nat) (st : CanvasStore) (tbl : SessionTable)
    (h : st.isLoadingSession = true) : saveCanvas now st tbl = (st, tbl) := by
  unfold saveCanvas
  simp [h]

theorem saveCanvas_of_empty (now : Nat) (st : CanvasStore) (tbl : SessionTable)
    (h1 : st.nodes = []) (h2 : st.edges = []) : saveCanvas now st tbl = (st, tbl) := by
  unfold saveCanvas
  split
  · rfl
  · simp [h1, h2]

theorem loadSession_table_eq (sessionId : String) (st : CanvasStore) (tbl : SessionTable) :
    (loadSession sessionId st tbl).2 = tbl := by
  unfold loadSession
  cases getCanvasSession tbl sessionId <;> rfl

/-- C8: while the store is in the loading state (`isLoadingSession = true`)
every invocation of `saveCanvas` writes nothing to the persistent store and
leaves all state unchanged; and `loadSession` itself only reads the
persistent store, so restoring a session never bumps the stored session's
`updatedAt` timestamp. -/
theorem save_suppressed_while_loading :
    (∀ (now : Nat) (st : CanvasStore) (tbl : SessionTable),
      st.isLoadingSession = true → saveCanvas now st tbl = (st, tbl)) ∧
    (∀ (sessionId : String) (st : CanvasStore) (tbl : SessionTable),
      (loadSession sessionId st tbl).2 = tbl) :=
  ⟨saveCanvas_of_isLoading, loadSession_table_eq⟩

/-- A concrete canvas store used to exercise the persistence theorems. -/
def demoStore : CanvasStore :=
  ⟨[⟨"n1", some NType.chat, some (0, 0), none, none, ⟨none, none, none, none⟩⟩],
   [], ⟨0, 0, 1⟩, true, some "s1", [], true, false⟩

/-- Witness for C8 at a concrete loading-state store and table. -/
theorem save_suppressed_while_loading_witness :
    saveCanvas 42 demoStore [] = (demoStore, []) ∧ (loadSession "s1" demoStore []).2 = [] :=
  ⟨save_suppressed_while_loading.1 42 demoStore [] rfl,
   save_suppressed_while_loading.2 "s1" demoStore []⟩

/-- C9: when the live node and edge lists are both empty, `saveCanvas`
returns without writing to the persistent store; consequently a
`deleteNode` call that removes the last remaining node (and whose edge
filter leaves no edges) writes nothing, and any stored session record is
exactly what it was before the deletion. -/
theorem empty_canvas_never_saved :
    (∀ (now : Nat) (st : CanvasStore) (tbl : SessionTable),
      st.nodes = [] → st.edges = [] → saveCanvas now st tbl = (st, tbl)) ∧
    (∀ (now : Nat) (st : CanvasStore) (tbl : SessionTable) (nodeId : String),
      st.nodes.filter (fun node => node.id != nodeId) = [] →
      st.edges.filter (fun edge => edge.source != nodeId && edge.target != nodeId) = [] →
      (deleteNode nodeId now st tbl).2 = tbl ∧
      ∀ sessionId, getCanvasSession (deleteNode nodeId now st tbl).2 sessionId =
        getCanvasSession tbl sessionId) := by
  constructor
  · exact saveCanvas_of_empty
  · intro now st tbl nodeId h1 h2
    have : deleteNode nodeId now st tbl =
        ({ st with nodes := [], edges := [] }, tbl) := by
      unfold deleteNode
      rw [h1, h2]
      exact saveCanvas_of_empty now _ tbl rfl rfl
    rw [this]
    exact ⟨rfl, fun _ => rfl⟩

/-- A store holding a single node (with no edges), about to be deleted. -/
def demoStoreOneNode : CanvasStore :=
  ⟨[⟨"n1", some NType.chat, some (0, 0), none, none, ⟨none, none, none, none⟩⟩],
   [], ⟨0, 0, 1⟩, true, some "s1", [], false, false⟩

/-- A stored session record for the witness below. -/
def demoSession : CanvasSessionData :=
  ⟨"s1", "Demo", ⟨[⟨"n1", NType.chat, (0, 0), 400, 500, ⟨none, none, none, none⟩⟩], [],
    ⟨0, 0, 1⟩, 1⟩, 10, 20⟩

/-- Witness for C9: deleting the only node of `demoStoreOneNode` leaves the
stored table, and in particular the record of session `s1`, untouched. -/
theorem empty_canvas_never_saved_witness :
    (deleteNode "n1" 42 demoStoreOneNode [("s1", demoSession)]).2 = [("s1", demoSession)] ∧
    ∀ sessionId, getCanvasSession (deleteNode "n1" 42 demoStoreOneNode [("s1", demoSession)]).2
      sessionId = getCanvasSession [("s1", demoSession)] sessionId :=
  empty_canvas_never_saved.2 42 demoStoreOneNode [("s1", demoSession)] "n1" (by decide)
    (by decide)

/-- C6: an edge created by `handleConnect` between two existing nodes is
appended with kind `rag` iff its source is a memory node and its target a
chat node, and kind `context` otherwise; and on session load, an edge whose
stored kind is missing or `context` but whose endpoints resolve to
memory → chat is reclassified to `rag`, while every edge carrying any other
stored kind keeps it unchanged. -/
theorem edge_kind_inference :
    (∀ (nodes : List RFNode) (edges : List RFEdge) (s t : String) (sn tn : RFNode) (now : Nat),
      nodes.find? (fun n => n.id == s) = some sn →
      nodes.find? (fun n => n.id == t) = some tn →
      ∃ e : RFEdge, handleConnect nodes edges (some s) (some t) now = edges ++ [e] ∧
        e.source = s ∧ e.target = t ∧
        (e.type = some EdgeType.rag ↔
          sn.type = some NType.memory ∧ tn.type = some NType.chat) ∧
        (¬(sn.type = some NType.memory ∧ tn.type = some NType.chat) →
          e.type = some EdgeType.context)) ∧
    (∀ (storedNodes : List CanvasNode) (e : CanvasEdge),
      ((e.type = none ∨ e.type = some EdgeType.context) →
        ((storedNodes.find? fun n => n.id == e.source).map fun n => n.type) = some NType.memory →
        ((storedNodes.find? fun n => n.id == e.target).map fun n => n.type) = some NType.chat →
        (loadEdge storedNodes e).type = some EdgeType.rag) ∧
      (∀ k, e.type = some k →
        ¬(k = EdgeType.context ∧
          ((storedNodes.find? fun n => n.id == e.source).map fun n => n.type) =
            some NType.memory ∧
          ((storedNodes.find? fun n => n.id == e.target).map fun n => n.type) =
            some NType.chat) →
        (loadEdge storedNodes e).type = some k)) := by
  constructor
  · intro nodes edges s t sn tn now hs ht
    refine ⟨⟨mkEdgeId s t now, s, t, some (if sn.type = some NType.memory ∧
      tn.type = some NType.chat then EdgeType.rag else EdgeType.context)⟩, ?_, rfl, rfl, ?_, ?_⟩
    · simp only [handleConnect]
      rw [hs, ht]
    · by_cases hmc : sn.type = some NType.memory ∧ tn.type = some NType.chat
      · simp [hmc]
      · simp [hmc]
    · intro hmc
      simp [hmc]
  · intro storedNodes e
    constructor
    · intro htype hsrc htgt
      unfold loadEdge
      rw [if_pos htype]
      simp only []
      rw [if_pos ⟨hsrc, htgt⟩]
    · intro k hk hnot
      rcases k with _ | _
      · have hnc : ¬(((storedNodes.find? fun n => n.id == e.source).map fun n => n.type) =
            some NType.memory ∧
            ((storedNodes.find? fun n => n.id == e.target).map fun n => n.type) =
            some NType.chat) := fun hcon => hnot ⟨rfl, hcon⟩
        unfold loadEdge
        rw [if_pos (Or.inr hk)]
        simp only []
        rw [if_neg hnc]
        simp [hk]
      · unfold loadEdge
        rw [if_neg (by simp [hk])]
        simp [hk]

/-- Concrete memory and chat nodes for the C6 witness. -/
def memNode : RFNode := ⟨"m", some NType.memory, some (0, 0), none, none, ⟨none, none, none, none⟩⟩

/-- Concrete chat node for the C6 witness. -/
def chatNode : RFNode := ⟨"c", some NType.chat, some (1, 1), none, none, ⟨none, none, none, none⟩⟩

/-- Witness for C6: connecting the concrete memory node to the concrete chat
node creates a `rag` edge, and a stored `rag` edge between two chat nodes
keeps its kind on load. -/
theorem edge_kind_inference_witness :
    (∃ e : RFEdge, handleConnect [memNode, chatNode] [] (some "m") (some "c") 7 = [] ++ [e] ∧
      e.source = "m" ∧ e.target = "c" ∧
      (e.type = some EdgeType.rag ↔
        memNode.type = some NType.memory ∧ chatNode.type = some NType.chat) ∧
      (¬(memNode.type = some NType.memory ∧ chatNode.type = some NType.chat) →
        e.type = some EdgeType.context)) ∧
    (loadEdge [] ⟨"e0", "a", "b", some EdgeType.rag⟩).type = some EdgeType.rag :=
  ⟨(edge_kind_inference.1 [memNode, chatNode] [] "m" "c" memNode chatNode 7 (by decide)
      (by decide)),
   (edge_kind_inference.2 [] ⟨"e0", "a", "b", some EdgeType.rag⟩).2 EdgeType.rag rfl
     (by simp [getCanvasSession])⟩

theorem donorForwarded_filter (msgs : List Message) :
    donorForwarded msgs =
      (msgs.filter fun m => m.role == Role.user || m.role == Role.assistant).map
        (fun m => ⟨m.role, m.content⟩) ∧
    ∀ lm ∈ donorForwarded msgs, lm.role ≠ Role.system := by
  constructor
  · induction msgs with
    | nil => rfl
    | cons m rest ih =>
      unfold donorForwarded at ih ⊢
      rw [List.filterMap_cons]
      cases hr : m.role with
      | system =>
        rw [List.filter_cons_of_neg (by simp [hr])]
        simpa [hr] using ih
      | user =>
        rw [List.filter_cons_of_pos (by simp [hr])]
        simpa [hr] using ih
      | assistant =>
        rw [List.filter_cons_of_pos (by simp [hr])]
        simpa [hr] using ih
  · intro lm hlm
    unfold donorForwarded at hlm
    obtain ⟨m, _, hfm⟩ := List.mem_filterMap.mp hlm
    by_cases hc : m.role = Role.user ∨ m.role = Role.assistant
    · rw [if_pos hc] at hfm
      cases hfm
      rcases hc with h | h <;> simp [h]
    · rw [if_neg hc] at hfm
      cases hfm

/-- C7: for a receiver whose context edges (in edge-insertion order) point
from donor D1 (messages `[u1, a1]`) and donor D2 (messages `[u2]`), the
transcript contains D1's labeled header followed by `u1`, `a1` in order,
then the separator, then D2's labeled header followed by `u2`, then the
end-of-context marker, all before the receiver's own messages; the node
list's order (creation order) is irrelevant.  Moreover, for every donor
message list, the forwarded block is exactly the `user`/`assistant`
messages in original order — a donor `system` message is never forwarded. -/
theorem context_propagation
    (nodes : List RFNode) (edges : List RFEdge) (receiverId : String)
    (D1 D2 : RFNode) (e1 e2 : RFEdge) (u1 a1 u2 : Message)
    (systemPrompt ragContext : String) (own : List Message)
    (hfilter : (edges.filter fun e => e.target == receiverId).filter
      (fun e => e.type == some EdgeType.context) = [e1, e2])
    (hfind1 : nodes.find? (fun n => n.id == e1.source) = some D1)
    (hfind2 : nodes.find? (fun n => n.id == e2.source) = some D2)
    (hty1 : D1.type = some NType.chat) (hty2 : D2.type = some NType.chat)
    (hmsg1 : D1.data.messages = some [u1, a1]) (hmsg2 : D2.data.messages = some [u2])
    (hu1 : u1.role = Role.user) (ha1 : a1.role = Role.assistant) (hu2 : u2.role = Role.user) :
    (buildLLMMessages systemPrompt (getContextFromDonorNodes nodes edges receiverId)
      ragContext own =
    (if systemPrompt ≠ "" then [⟨Role.system, systemPrompt⟩] else []) ++
    ([donorHeader (jsOrString D1.data.title "Untitled"),
      ⟨Role.user, u1.content⟩, ⟨Role.assistant, a1.content⟩,
      donorSeparator,
      donorHeader (jsOrString D2.data.title "Untitled"),
      ⟨Role.user, u2.content⟩,
      endOfContextMarker] ++
    (if ragContext ≠ "" then [ragSystemMessage ragContext] else []) ++
    own.map fun m => ⟨m.role, m.content⟩)) ∧
    ∀ msgs : List Message,
      donorForwarded msgs =
        (msgs.filter fun m => m.role == Role.user || m.role == Role.assistant).map
          (fun m => ⟨m.role, m.content⟩) ∧
      ∀ lm ∈ donorForwarded msgs, lm.role ≠ Role.system := by
  constructor
  · have hdonors : getContextFromDonorNodes nodes edges receiverId =
        [⟨D1.id, jsOrString D1.data.title "Untitled", [u1, a1]⟩,
         ⟨D2.id, jsOrString D2.data.title "Untitled", [u2]⟩] := by
      unfold getContextFromDonorNodes
      simp only []
      rw [hfilter]
      simp [List.filterMap, hfind1, hfind2, hty1, hty2, hmsg1, hmsg2]
    rw [hdonors]
    unfold buildLLMMessages
    simp only [donorBlocks, donorForwarded]
    simp [hu1, ha1, hu2, List.append_assoc]
  · exact donorForwarded_filter

/-- Concrete donor/receiver graph for the C7 witness: the receiver is
created first in the node list, the donors after it, while the edge order
makes D1 the first donor. -/
def witnessNodesC7 : List RFNode :=
  [⟨"r", some NType.chat, some (0, 0), none, none, ⟨some "Receiver", some [], none, none⟩⟩,
   ⟨"d2", some NType.chat, some (2, 0), none, none,
     ⟨some "Second", some [⟨Role.user, "u2", 3⟩], none, none⟩⟩,
   ⟨"d1", some NType.chat, some (1, 0), none, none,
     ⟨some "First", some [⟨Role.user, "u1", 1⟩, ⟨Role.assistant, "a1", 2⟩], none, none⟩⟩]

/-- The two context edges of the C7 witness, in insertion order D1 then D2. -/
def witnessEdgesC7 : List RFEdge :=
  [⟨"e1", "d1", "r", some EdgeType.context⟩, ⟨"e2", "d2", "r", some EdgeType.context⟩]

/-- Witness for C7 on the concrete graph: the transcript lists D1's block,
the separator, D2's block, the marker, then the receiver's own message; and
on a concrete donor message list that does contain a `system` message, the
forwarded block drops it. -/
theorem context_propagation_witness :
    (buildLLMMessages "be brief" (getContextFromDonorNodes witnessNodesC7 witnessEdgesC7 "r")
      "" [⟨Role.user, "q", 9⟩] =
    (if ("be brief" : String) ≠ "" then [⟨Role.system, "be brief"⟩] else []) ++
    ([donorHeader (jsOrString (some "First") "Untitled"),
      ⟨Role.user, "u1"⟩, ⟨Role.assistant, "a1"⟩,
      donorSeparator,
      donorHeader (jsOrString (some "Second") "Untitled"),
      ⟨Role.user, "u2"⟩,
      endOfContextMarker] ++
    (if ("" : String) ≠ "" then [ragSystemMessage ""] else []) ++
    ([⟨Role.user, "q", 9⟩] : List Message).map fun m => ⟨m.role, m.content⟩)) ∧
    donorForwarded [⟨Role.system, "sys", 0⟩, ⟨Role.user, "u1", 1⟩] = [⟨Role.user, "u1"⟩] := by
  have h := context_propagation witnessNodesC7 witnessEdgesC7 "r"
    ⟨"d1", some NType.chat, some (1, 0), none, none,
      ⟨some "First", some [⟨Role.user, "u1", 1⟩, ⟨Role.assistant, "a1", 2⟩], none, none⟩⟩
    ⟨"d2", some NType.chat, some (2, 0), none, none,
      ⟨some "Second", some [⟨Role.user, "u2", 3⟩], none, none⟩⟩
    ⟨"e1", "d1", "r", some EdgeType.context⟩ ⟨"e2", "d2", "r", some EdgeType.context⟩
    ⟨Role.user, "u1", 1⟩ ⟨Role.assistant, "a1", 2⟩ ⟨Role.user, "u2", 3⟩
    "be brief" "" [⟨Role.user, "q", 9⟩]
    (by decide) (by decide) (by decide) rfl rfl rfl rfl rfl rfl rfl
  refine ⟨h.1, ?_⟩
  rw [(h.2 [⟨Role.system, "sys", 0⟩, ⟨Role.user, "u1", 1⟩]).1]
  rfl

/-! ## Streaming accumulation lemmas -/

theorem foldl_append_eq (l : List String) (s : String) :
    l.foldl (fun a b => a ++ b) s = s ++ concatAll l := by
  induction l generalizing s with
  | nil => simp [concatAll]
  | cons a rest ih =>
    rw [List.foldl_cons, ih (s ++ a)]
    have h2 : concatAll (a :: rest) = a ++ concatAll rest := by
      unfold concatAll
      rw [List.foldl_cons, String.empty_append]
      exact ih a
    rw [h2, String.append_assoc]

theorem concatAll_cons (a : String) (l : List String) :
    concatAll (a :: l) = a ++ concatAll l := by
  unfold concatAll
  rw [List.foldl_cons, String.empty_append]
  exact foldl_append_eq l a

theorem canvasStreamStates_get (updated : List Message) (now : Nat) :
    ∀ (deltas : List String) (full : String) (k : Nat),
      (∀ d ∈ deltas, d ≠ "") → k < deltas.length →
      (canvasStreamStates updated now (deltas.map fun d => ⟨d, false⟩) full)[k]? =
        some (updated ++ [⟨Role.assistant, full ++ concatAll (deltas.take (k + 1)), now⟩]) := by
  intro deltas
  induction deltas with
  | nil => intro full k _ hk; simp at hk
  | cons d rest ih =>
    intro full k hne hk
    have hd : d ≠ "" := hne d (List.mem_cons_self d rest)
    rw [List.map_cons]
    unfold canvasStreamStates
    rw [if_pos hd]
    simp only [Bool.false_eq_true, if_false]
    rcases k with _ | k
    · simp [concatAll_cons, concatAll]
    · rw [List.getElem?_cons_succ]
      rw [ih (full ++ d) k (fun x hx => hne x (List.mem_cons_of_mem d hx)) (by simpa using hk)]
      rw [List.take_succ_cons, concatAll_cons, String.append_assoc]

theorem chatModeStreamStates_get_assistant (now : Nat) :
    ∀ (deltas : List String) (full : String) (base : List Message) (t0 : Nat)
      (chat : ChatData) (k : Nat),
      (∀ d ∈ deltas, d ≠ "") → k < deltas.length →
      chat.messages = base ++ [⟨Role.assistant, full, t0⟩] →
      (chatModeStreamStates now (deltas.map fun d => ⟨d, false⟩) full chat)[k]? =
        some { chat with
          messages := base ++ [⟨Role.assistant, full ++ concatAll (deltas.take (k + 1)), t0⟩],
          updatedAt := now } := by
  intro deltas
  induction deltas with
  | nil => intro full base t0 chat k _ hk; simp at hk
  | cons d rest ih =>
    intro full base t0 chat k hne hk hmsg
    have hd : d ≠ "" := hne d (List.mem_cons_self d rest)
    rw [List.map_cons]
    unfold chatModeStreamStates
    rw [if_pos hd]
    simp only [Bool.false_eq_true, if_false]
    have hstep : updateLastMessage (full ++ d) now chat =
        { chat with messages := base ++ [⟨Role.assistant, full ++ d, t0⟩], updatedAt := now } := by
      unfold updateLastMessage
      simp only [hmsg, List.getLast?_concat, List.dropLast_concat]
      simp
    rw [hstep]
    rcases k with _ | k
    · simp [concatAll_cons, concatAll]
    · rw [List.getElem?_cons_succ]
      rw [ih (full ++ d) base t0 _ k (fun x hx => hne x (List.mem_cons_of_mem d hx))
        (by simpa using hk) rfl]
      rw [List.take_succ_cons, concatAll_cons, String.append_assoc]

/-- C2 (amended): during a streamed completion the caller concatenates the
provider's incremental deltas into `fullContent` and, after each delta,
replaces the stored assistant message's content wholesale with the
accumulated string — so after the `k`-th delta the stored assistant content
equals the concatenation of all deltas received so far, not the `k`-th
delta itself.  This holds for the canvas chat node's streaming accumulator
and for the chat-mode loop feeding the chat store's `updateLastMessage`. -/
theorem streaming_accumulates_deltas (updated : List Message) (now : Nat)
    (deltas : List String) (k : Nat) (chat : ChatData)
    (hne : ∀ d ∈ deltas, d ≠ "") (hk : k < deltas.length)
    (hlast : ∀ m, chat.messages.getLast? = some m → m.role ≠ Role.assistant) :
    (canvasStreamStates updated now (deltas.map fun d => ⟨d, false⟩) "")[k]? =
      some (updated ++ [⟨Role.assistant, concatAll (deltas.take (k + 1)), now⟩]) ∧
    (chatModeStreamStates now (deltas.map fun d => ⟨d, false⟩) "" chat)[k]? =
      some { chat with
        messages := chat.messages ++ [⟨Role.assistant, concatAll (deltas.take (k + 1)), now⟩],
        updatedAt := now } := by
  constructor
  · have := canvasStreamStates_get updated now deltas "" k hne hk
    rwa [String.empty_append] at this
  · rcases deltas with _ | ⟨d, rest⟩
    · simp at hk
    · have hd : d ≠ "" := hne d (List.mem_cons_self d rest)
      rw [List.map_cons]
      unfold chatModeStreamStates
      rw [if_pos hd]
      simp only [Bool.false_eq_true, if_false]
      have hstep : updateLastMessage ("" ++ d) now chat =
          { chat with messages := chat.messages ++ [⟨Role.assistant, "" ++ d, now⟩], updatedAt := now } := by
        unfold updateLastMessage
        cases hlastm : chat.messages.getLast? with
        | none => simp [hlastm]
        | some m =>
          have hna : m.role ≠ Role.assistant := hlast m hlastm
          simp [hlastm, hna]
      rw [hstep]
      rcases k with _ | k
      · simp [concatAll_cons, concatAll]
      · rw [List.getElem?_cons_succ]
        rw [chatModeStreamStates_get_assistant now rest ("" ++ d) chat.messages now _ k
          (fun x hx => hne x (List.mem_cons_of_mem d hx)) (by simpa using hk) rfl]
        rw [List.take_succ_cons, concatAll_cons]
        simp

/-- Counterexample to C2 as stated: with cumulative-replacement semantics
the stored assistant content after the second delta would be that delta's
content, `"lo"`; instead both streaming loops store the concatenation
`"Hello"` of the two deltas `"Hel"`, `"lo"`. -/
theorem streaming_replacement_cex :
    (canvasStreamStates [] 0 [⟨"Hel", false⟩, ⟨"lo", false⟩] "")[1]? =
      some [⟨Role.assistant, "Hello", 0⟩] ∧
    ((chatModeStreamStates 0 [⟨"Hel", false⟩, ⟨"lo", false⟩] "" ⟨"c", "t", [], 0, 0⟩)[1]?).map
      (fun c => c.messages) = some [⟨Role.assistant, "Hello", 0⟩] ∧
    "Hello" ≠ "lo" :=
  ⟨rfl, rfl, by decide⟩

/-- Witness for the amended C2 at the concrete deltas `["Hel", "lo"]`,
index 1: the stored assistant content is `"Hello"` in both loops. -/
theorem streaming_accumulates_deltas_witness :
    (canvasStreamStates [⟨Role.user, "hi", 0⟩] 5 (["Hel", "lo"].map fun d => ⟨d, false⟩) "")[1]? =
      some ([⟨Role.user, "hi", 0⟩] ++
        [⟨Role.assistant, concatAll (["Hel", "lo"].take 2), 5⟩]) ∧
    (chatModeStreamStates 5 (["Hel", "lo"].map fun d => ⟨d, false⟩) ""
      ⟨"c", "t", [⟨Role.user, "hi", 0⟩], 0, 0⟩)[1]? =
      some { (⟨"c", "t", [⟨Role.user, "hi", 0⟩], 0, 0⟩ : ChatData) with
        messages := [⟨Role.user, "hi", 0⟩] ++ [⟨Role.assistant, concatAll (["Hel", "lo"].take 2), 5⟩],
        updatedAt := 5 } :=
  streaming_accumulates_deltas [⟨Role.user, "hi", 0⟩] 5 ["Hel", "lo"] 1
    ⟨"c", "t", [⟨Role.user, "hi", 0⟩], 0, 0⟩ (by decide) (by decide)
    (by intro m hm; simp at hm; subst hm; decide)

theorem cosineSimilarity_cases (a b : List ℝ) :
    (a.length ≠ b.length →
      VectorStore.cosineSimilarity a b = .error "Vectors must have the same length") ∧
    (a.length = b.length → (euclidNorm a = 0 ∨ euclidNorm b = 0) →
      VectorStore.cosineSimilarity a b = .ok 0) ∧
    (a.length = b.length → euclidNorm a ≠ 0 → euclidNorm b ≠ 0 →
      VectorStore.cosineSimilarity a b =
        .ok (dotProductSpec a b / (euclidNorm a * euclidNorm b))) := by
  refine ⟨?_, ?_, ?_⟩
  · intro h
    unfold VectorStore.cosineSimilarity
    rw [if_pos h]
  · intro hlen hnorm
    unfold euclidNorm at hnorm
    simp only [VectorStore.cosineSimilarity, hlen, ne_eq, not_true_eq_false, if_false]
    rw [if_pos (mul_eq_zero.mpr hnorm)]
  · intro hlen hna hnb
    unfold euclidNorm at hna hnb
    unfold VectorStore.cosineSimilarity
    rw [if_neg (by simp [hlen])]
    simp only []
    rw [if_neg (mul_ne_zero hna hnb)]
    rfl

/-- C5: `cosineSimilarity` throws on a length mismatch rather than coercing
or truncating; for equal lengths it returns `0` (not an error) when either
vector's Euclidean norm is `0`, and otherwise returns
`(Σ aᵢbᵢ) / (‖a‖ · ‖b‖)`. -/
theorem cosineSimilarity_spec (a b : List ℝ) :
    (a.length ≠ b.length →
      VectorStore.cosineSimilarity a b = .error "Vectors must have the same length") ∧
    (a.length = b.length → (euclidNorm a = 0 ∨ euclidNorm b = 0) →
      VectorStore.cosineSimilarity a b = .ok 0) ∧
    (a.length = b.length → euclidNorm a ≠ 0 → euclidNorm b ≠ 0 →
      VectorStore.cosineSimilarity a b =
        .ok (dotProductSpec a b / (euclidNorm a * euclidNorm b))) :=
  cosineSimilarity_cases a b

/-- Witness for C5: a 1/2-length mismatch throws; the zero vector yields
similarity `0`; and `[3]` against `[4]` yields the quotient formula. -/
theorem cosineSimilarity_spec_witness :
    VectorStore.cosineSimilarity [(1 : ℝ)] [1, 0] =
      .error "Vectors must have the same length" ∧
    VectorStore.cosineSimilarity [(0 : ℝ)] [5] = .ok 0 ∧
    VectorStore.cosineSimilarity [(3 : ℝ)] [4] =
      .ok (dotProductSpec [3] [4] / (euclidNorm [3] * euclidNorm [4])) :=
  ⟨(cosineSimilarity_spec [1] [1, 0]).1 (by norm_num),
   (cosineSimilarity_spec [0] [5]).2.1 (by norm_num)
     (Or.inl (by simp [euclidNorm])),
   (cosineSimilarity_spec [3] [4]).2.2 (by norm_num)
     (by simp [euclidNorm, Real.sqrt_eq_zero'])
     (by simp [euclidNorm, Real.sqrt_eq_zero'])⟩

/-! ## Search lemmas -/

theorem scoreChunks_ok_spec (q : List ℝ) :
    ∀ (chunks : List DocumentChunk) (rs : List (DocumentChunk × ℝ)),
      VectorStore.scoreChunks q chunks = .ok rs →
      rs.length = (chunks.filter VectorStore.hasEmbedding).length ∧
      ∀ r ∈ rs, VectorStore.hasEmbedding r.1 := by
  intro chunks
  induction chunks with
  | nil =>
    intro rs h
    simp only [VectorStore.scoreChunks] at h
    cases h
    exact ⟨rfl, fun r hr => absurd hr (List.not_mem_nil r)⟩
  | cons c cs ih =>
    intro rs h
    rcases hemb : c.embedding with _ | emb
    · simp only [VectorStore.scoreChunks, hemb] at h
      have := ih rs h
      have hfe : VectorStore.hasEmbedding c = false := by
        simp [VectorStore.hasEmbedding, hemb]
      rw [List.filter_cons_of_neg (by simp [hfe])]
      exact this
    · by_cases hlen : emb.length = 0
      · simp only [VectorStore.scoreChunks, hemb, hlen, if_true] at h
        have := ih rs h
        have hfe : VectorStore.hasEmbedding c = false := by
          simp [VectorStore.hasEmbedding, hemb, hlen]
        rw [List.filter_cons_of_neg (by simp [hfe])]
        exact this
      · simp only [VectorStore.scoreChunks, hemb, hlen, if_false] at h
        cases hcos : VectorStore.cosineSimilarity q emb with
        | error e => rw [hcos] at h; cases h
        | ok s =>
          rw [hcos] at h
          cases hrest : VectorStore.scoreChunks q cs with
          | error e => rw [hrest] at h; cases h
          | ok rest =>
            rw [hrest] at h
            simp only [bind, Except.bind, pure, Except.pure] at h
            cases h
            have hih := ih rest hrest
            have hfe : VectorStore.hasEmbedding c = true := by
              simp [VectorStore.hasEmbedding, hemb, hlen]
            rw [List.filter_cons_of_pos (by simp [hfe])]
            constructor
            · simp [hih.1]
            · intro r hr
              rcases List.mem_cons.mp hr with h1 | h2
              · rw [h1]; exact hfe
              · exact hih.2 r h2

theorem scoreChunks_of_no_embedding (q : List ℝ) :
    ∀ (chunks : List DocumentChunk),
      chunks.filter VectorStore.hasEmbedding = [] →
      VectorStore.scoreChunks q chunks = .ok [] := by
  intro chunks
  induction chunks with
  | nil => intro _; rfl
  | cons c cs ih =>
    intro h
    have hfe : VectorStore.hasEmbedding c = false := by
      by_contra hc
      have : VectorStore.hasEmbedding c = true := by
        cases hhe : VectorStore.hasEmbedding c
        · exact absurd hhe hc
        · rfl
      rw [List.filter_cons_of_pos (by simp [this])] at h
      cases h
    have hcs : cs.filter VectorStore.hasEmbedding = [] := by
      rwa [List.filter_cons_of_neg (by simp [hfe])] at h
    rcases hemb : c.embedding with _ | emb
    · simp only [VectorStore.scoreChunks, hemb]
      exact ih hcs
    · have hlen : emb.length = 0 := by
        by_contra hl
        simp [VectorStore.hasEmbedding, hemb, hl] at hfe
      simp only [VectorStore.scoreChunks, hemb, hlen, if_true]
      exact ih hcs

/-- C3: `search` succeeds with the empty sequence when the store is empty or
no chunk carries a (non-empty) embedding; and whenever it returns a result
sequence, that sequence has at most `min n topK` entries (where `n` counts
the chunks with a non-empty embedding), its scores are non-increasing, and
every returned chunk has a non-empty embedding. -/
theorem search_spec (chunks : List DocumentChunk) (q : List ℝ) (topK : Nat) :
    (chunks.filter VectorStore.hasEmbedding = [] →
      VectorStore.search chunks q topK = .ok []) ∧
    (∀ rs, VectorStore.search chunks q topK = .ok rs →
      rs.length ≤ min (chunks.filter VectorStore.hasEmbedding).length topK ∧
      List.Sorted VectorStore.scoreDesc rs ∧
      ∀ r ∈ rs, VectorStore.hasEmbedding r.1) := by
  haveI htot : IsTotal (DocumentChunk × ℝ) VectorStore.scoreDesc :=
    ⟨fun a b => le_total b.2 a.2⟩
  haveI htr : IsTrans (DocumentChunk × ℝ) VectorStore.scoreDesc :=
    ⟨fun _ _ _ hab hbc => le_trans hbc hab⟩
  constructor
  · intro hempty
    by_cases hlen : chunks.length = 0
    · unfold VectorStore.search
      rw [if_pos hlen]
    · unfold VectorStore.search
      rw [if_neg hlen]
      rw [scoreChunks_of_no_embedding q chunks hempty]
      simp
  · intro rs h
    unfold VectorStore.search at h
    by_cases hlen : chunks.length = 0
    · rw [if_pos hlen] at h
      cases h
      exact ⟨Nat.zero_le _, List.sorted_nil, fun r hr => absurd hr (List.not_mem_nil r)⟩
    · rw [if_neg hlen] at h
      cases hsc : VectorStore.scoreChunks q chunks with
      | error e => rw [hsc] at h; cases h
      | ok results =>
        rw [hsc] at h
        simp only [bind, Except.bind, pure, Except.pure] at h
        cases h
        have hspec := scoreChunks_ok_spec q chunks results hsc
        refine ⟨?_, ?_, ?_⟩
        · rw [List.length_take, List.length_insertionSort, hspec.1, Nat.min_comm]
        · exact List.Pairwise.sublist (List.take_sublist _ _)
            (List.sorted_insertionSort VectorStore.scoreDesc results)
        · intro r hr
          have hr2 : r ∈ results.insertionSort VectorStore.scoreDesc :=
            List.take_subset _ _ hr
          exact hspec.2 r ((List.mem_insertionSort VectorStore.scoreDesc).mp hr2)

/-! ## Concrete evaluation helpers -/

theorem euclidNorm_pair_eq_ten (b1 b2 : ℝ) (hsum : b1 * b1 + b2 * b2 = 100) :
    euclidNorm [b1, b2] = 10 := by
  unfold euclidNorm
  simp only [List.map_cons, List.map_nil, List.sum_cons, List.sum_nil, add_zero]
  rw [hsum, show (100 : ℝ) = 10 ^ 2 by norm_num]
  exact Real.sqrt_sq (by norm_num)

theorem euclidNorm_query_eq_one : euclidNorm [(1 : ℝ), 0] = 1 := by
  unfold euclidNorm
  simp only [List.map_cons, List.map_nil, List.sum_cons, List.sum_nil, add_zero]
  norm_num [Real.sqrt_one]

theorem cosine_query_eval (b1 b2 : ℝ) (hsum : b1 * b1 + b2 * b2 = 100) :
    VectorStore.cosineSimilarity [1, 0] [b1, b2] = .ok (b1 / 10) := by
  have hnb := euclidNorm_pair_eq_ten b1 b2 hsum
  have hna := euclidNorm_query_eq_one
  have h3 := (cosineSimilarity_cases [1, 0] [b1, b2]).2.2 (by norm_num)
    (by rw [hna]; norm_num) (by rw [hnb]; norm_num)
  rw [h3, hna, hnb]
  have hdot : dotProductSpec [1, 0] [b1, b2] = b1 := by
    unfold dotProductSpec
    simp
  rw [hdot]
  norm_num

theorem scoreChunks_cons_some (q : List ℝ) (c : DocumentChunk) (cs : List DocumentChunk)
    (emb : List ℝ) (s : ℝ) (rest : List (DocumentChunk × ℝ))
    (hemb : c.embedding = some emb) (hne : ¬emb.length = 0)
    (hcos : VectorStore.cosineSimilarity q emb = .ok s)
    (hrest : VectorStore.scoreChunks q cs = .ok rest) :
    VectorStore.scoreChunks q (c :: cs) = .ok ((c, s) :: rest) := by
  simp only [VectorStore.scoreChunks, hemb, hne, if_false, hcos, hrest, bind, Except.bind,
    pure, Except.pure]

theorem scoreChunks_cons_skip (q : List ℝ) (c : DocumentChunk) (cs : List DocumentChunk)
    (hemb : c.embedding = none) :
    VectorStore.scoreChunks q (c :: cs) = VectorStore.scoreChunks q cs := by
  simp only [VectorStore.scoreChunks, hemb]

theorem search_eval (chunks : List DocumentChunk) (q : List ℝ) (topK : Nat)
    (results : List (DocumentChunk × ℝ)) (hne : ¬chunks.length = 0)
    (h : VectorStore.scoreChunks q chunks = .ok results) :
    VectorStore.search chunks q topK =
      .ok ((results.insertionSort VectorStore.scoreDesc).take topK) := by
  unfold VectorStore.search
  rw [if_neg hne, h]
  simp only [bind, Except.bind, pure, Except.pure]

theorem search_demo_eval :
    VectorStore.search searchDemoChunks [1, 0] 5 = .ok [(chunkD, 8 / 10)] := by
  have hcos : VectorStore.cosineSimilarity [1, 0] [8, 6] = .ok (8 / 10) :=
    cosine_query_eval 8 6 (by norm_num)
  have hsc : VectorStore.scoreChunks [1, 0] searchDemoChunks = .ok [(chunkD, 8 / 10)] := by
    unfold searchDemoChunks
    rw [scoreChunks_cons_some [1, 0] chunkD [chunkNoEmb] [8, 6] (8 / 10) [] rfl
      (by norm_num) hcos (by rw [scoreChunks_cons_skip [1, 0] chunkNoEmb [] rfl]; rfl)]
  rw [search_eval searchDemoChunks [1, 0] 5 [(chunkD, 8 / 10)] (by simp [searchDemoChunks]) hsc]
  simp

/-- Witness for C3 on `searchDemoChunks`: the single returned hit respects
the `min n topK` bound and the sortedness property. -/
theorem search_spec_witness :
    [((chunkD : DocumentChunk), (8 : ℝ) / 10)].length ≤
      min ((searchDemoChunks.filter VectorStore.hasEmbedding).length) 5 ∧
    List.Sorted VectorStore.scoreDesc [(chunkD, (8 : ℝ) / 10)] :=
  ⟨((search_spec searchDemoChunks [1, 0] 5).2 [(chunkD, 8 / 10)] search_demo_eval).1,
   ((search_spec searchDemoChunks [1, 0] 5).2 [(chunkD, 8 / 10)] search_demo_eval).2.1⟩

/-- C4: at send time each attached memory node's index is searched with
`topK = 3` using the single query embedding (`queryMemoryNode`), all
per-index results are concatenated in attachment order, globally re-sorted
by descending score, and exactly the top 5 overall are kept — so two
attached indices whose per-index results score `[0.9, 0.4, 0.2]` and
`[0.8, 0.3]` merge to the score order `[0.9, 0.8, 0.4, 0.3, 0.2]`. -/
theorem rag_merge_spec (tbl : VectorStoreTable) (m1 m2 : String) (q : List ℝ)
    (r1 r2 : List RagResult)
    (h1 : queryMemoryNode tbl m1 q = r1) (h2 : queryMemoryNode tbl m2 q = r2)
    (hs1 : r1.map RagResult.score = [0.9, 0.4, 0.2])
    (hs2 : r2.map RagResult.score = [0.8, 0.3]) :
    (ragTopResults tbl [m1, m2] q).map RagResult.score = [0.9, 0.8, 0.4, 0.3, 0.2] := by
  haveI hdec : DecidableRel (fun x y : ℝ => y ≤ x) := fun x y => Real.decidableLE y x
  unfold ragTopResults
  simp only [List.map_cons, List.map_nil, h1, h2]
  have hflat : List.flatten [r1, r2] = r1 ++ r2 := by simp
  rw [hflat, List.map_take]
  rw [List.map_insertionSort ragScoreDesc (fun x y : ℝ => y ≤ x) RagResult.score (r1 ++ r2)
    (fun a _ b _ => Iff.rfl)]
  rw [List.map_append, hs1, hs2]
  have hsorted : List.insertionSort (fun x y : ℝ => y ≤ x)
      ([0.9, 0.4, 0.2] ++ [0.8, 0.3] : List ℝ) = [0.9, 0.8, 0.4, 0.3, 0.2] := by
    norm_num [List.insertionSort, List.orderedInsert]
  rw [hsorted]
  rfl

theorem store_one_search_eval :
    VectorStore.search storeOne.documents [1, 0] 3 =
      .ok [(chunkA, 9 / 10), (chunkB, 4 / 10), (chunkC, 2 / 10)] := by
  have hA : VectorStore.cosineSimilarity [1, 0] [9, Real.sqrt 19] = .ok (9 / 10) :=
    cosine_query_eval 9 (Real.sqrt 19)
      (by rw [Real.mul_self_sqrt (by norm_num : (0 : ℝ) ≤ 19)]; norm_num)
  have hB : VectorStore.cosineSimilarity [1, 0] [4, Real.sqrt 84] = .ok (4 / 10) :=
    cosine_query_eval 4 (Real.sqrt 84)
      (by rw [Real.mul_self_sqrt (by norm_num : (0 : ℝ) ≤ 84)]; norm_num)
  have hC : VectorStore.cosineSimilarity [1, 0] [2, Real.sqrt 96] = .ok (2 / 10) :=
    cosine_query_eval 2 (Real.sqrt 96)
      (by rw [Real.mul_self_sqrt (by norm_num : (0 : ℝ) ≤ 96)]; norm_num)
  have hsc : VectorStore.scoreChunks [1, 0] [chunkA, chunkB, chunkC] =
      .ok [(chunkA, 9 / 10), (chunkB, 4 / 10), (chunkC, 2 / 10)] := by
    rw [scoreChunks_cons_some [1, 0] chunkA [chunkB, chunkC] [9, Real.sqrt 19] (9 / 10)
      [(chunkB, 4 / 10), (chunkC, 2 / 10)] rfl (by norm_num) hA
      (by rw [scoreChunks_cons_some [1, 0] chunkB [chunkC] [4, Real.sqrt 84] (4 / 10)
          [(chunkC, 2 / 10)] rfl (by norm_num) hB
          (by rw [scoreChunks_cons_some [1, 0] chunkC [] [2, Real.sqrt 96] (2 / 10) [] rfl
              (by norm_num) hC rfl])])]
  have hdocs : storeOne.documents = [chunkA, chunkB, chunkC] := rfl
  rw [hdocs, search_eval [chunkA, chunkB, chunkC] [1, 0] 3 _ (by simp) hsc]
  have hsorted : List.Sorted VectorStore.scoreDesc
      [(chunkA, (9 : ℝ) / 10), (chunkB, 4 / 10), (chunkC, 2 / 10)] := by
    simp only [List.sorted_cons, VectorStore.scoreDesc, List.mem_cons, List.mem_singleton]
    norm_num
  rw [hsorted.insertionSort_eq]
  rfl

theorem store_two_search_eval :
    VectorStore.search storeTwo.documents [1, 0] 3 = .ok [(chunkD, 8 / 10), (chunkE, 3 / 10)] := by
  have hD : VectorStore.cosineSimilarity [1, 0] [8, 6] = .ok (8 / 10) :=
    cosine_query_eval 8 6 (by norm_num)
  have hE : VectorStore.cosineSimilarity [1, 0] [3, Real.sqrt 91] = .ok (3 / 10) :=
    cosine_query_eval 3 (Real.sqrt 91)
      (by rw [Real.mul_self_sqrt (by norm_num : (0 : ℝ) ≤ 91)]; norm_num)
  have hsc : VectorStore.scoreChunks [1, 0] [chunkD, chunkE] =
      .ok [(chunkD, 8 / 10), (chunkE, 3 / 10)] := by
    rw [scoreChunks_cons_some [1, 0] chunkD [chunkE] [8, 6] (8 / 10) [(chunkE, 3 / 10)] rfl
      (by norm_num) hD
      (by rw [scoreChunks_cons_some [1, 0] chunkE [] [3, Real.sqrt 91] (3 / 10) [] rfl
          (by norm_num) hE rfl])]
  have hdocs : storeTwo.documents = [chunkD, chunkE] := rfl
  rw [hdocs, search_eval [chunkD, chunkE] [1, 0] 3 _ (by simp) hsc]
  have hsorted : List.Sorted VectorStore.scoreDesc [(chunkD, (8 : ℝ) / 10), (chunkE, 3 / 10)] := by
    simp only [List.sorted_cons, VectorStore.scoreDesc, List.mem_cons, List.mem_singleton]
    norm_num
  rw [hsorted.insertionSort_eq]
  rfl

theorem query_memory_node_one_eval :
    queryMemoryNode ragTable "m1" [1, 0] =
      [⟨"alpha", 9 / 10, "Store One"⟩, ⟨"beta", 4 / 10, "Store One"⟩,
       ⟨"gamma", 2 / 10, "Store One"⟩] := by
  unfold queryMemoryNode
  rw [show getVectorStore ragTable "m1" = some storeOne from rfl]
  simp only [store_one_search_eval]
  simp [jsOrString, chunkA, chunkB, chunkC, storeOne]

theorem query_memory_node_two_eval :
    queryMemoryNode ragTable "m2" [1, 0] =
      [⟨"delta", 8 / 10, "Store Two"⟩, ⟨"epsilon", 3 / 10, "Store Two"⟩] := by
  unfold queryMemoryNode
  rw [show getVectorStore ragTable "m2" = some storeTwo from rfl]
  simp only [store_two_search_eval]
  simp [jsOrString, chunkD, chunkE, storeTwo]

/-- Witness for C4 on the concrete two-store table: the merged score order
is `[0.9, 0.8, 0.4, 0.3, 0.2]`. -/
theorem rag_merge_spec_witness :
    (ragTopResults ragTable ["m1", "m2"] [1, 0]).map RagResult.score =
      [0.9, 0.8, 0.4, 0.3, 0.2] :=
  rag_merge_spec ragTable "m1" "m2" [1, 0]
    [⟨"alpha", 9 / 10, "Store One"⟩, ⟨"beta", 4 / 10, "Store One"⟩,
     ⟨"gamma", 2 / 10, "Store One"⟩]
    [⟨"delta", 8 / 10, "Store Two"⟩, ⟨"epsilon", 3 / 10, "Store Two"⟩]
    query_memory_node_one_eval query_memory_node_two_eval
    (by norm_num) (by norm_num)

/-! ## `chunkText` lemmas -/

theorem chunkLoop_step (text : List Char) (cs ov : Nat) (hcs : 0 < cs) (start iter : Nat)
    (chunks : List (List Char))
    (h1 : start < text.length) (h2 : chunks.length < 10000) (h3 : iter + 1 ≤ 20000) :
    chunkLoop text cs ov hcs start iter chunks =
      (let e := min (start + cs) text.length
       let chunk := jsTrim (jsSlice text start e)
       let chunks' := if 0 < chunk.length then chunks ++ [chunk] else chunks
       let start' := chunkNextStart start e ov
       if start' ≥ text.length then chunks'
       else chunkLoop text cs ov hcs start' (iter + 1) chunks') := by
  rw [chunkLoop]
  rw [dif_pos ⟨h1, h2⟩, if_neg (by omega)]

theorem chunkLoop_stop (text : List Char) (cs ov : Nat) (hcs : 0 < cs) (start iter : Nat)
    (chunks : List (List Char)) (h1 : ¬(start < text.length ∧ chunks.length < 10000)) :
    chunkLoop text cs ov hcs start iter chunks = chunks := by
  rw [chunkLoop]
  rw [dif_neg h1]


theorem dropWhile_eq_self_of_all (p : Char → Bool) (l : List Char)
    (h : ∀ c ∈ l, p c = false) : l.dropWhile p = l := by
  cases l with
  | nil => rfl
  | cons a l =>
    rw [List.dropWhile_cons]
    simp [h a (List.mem_cons_self a l)]

theorem jsTrim_of_no_ws (l : List Char) (h : ∀ c ∈ l, jsWhitespace c = false) :
    jsTrim l = l := by
  unfold jsTrim
  rw [dropWhile_eq_self_of_all _ l h]
  rw [dropWhile_eq_self_of_all _ l.reverse (fun c hc => h c (List.mem_reverse.mp hc))]
  exact List.reverse_reverse l

theorem chunkText_2400_aux (text : List Char) (hlen : text.length = 2400)
    (hws : ∀ c ∈ text, jsWhitespace c = false) :
    chunkText text 1000 200 = [jsSlice text 0 1000, jsSlice text 800 1800,
      jsSlice text 1600 2400, jsSlice text 2200 2400] := by
  have htrim : ∀ s e : Nat, jsTrim (jsSlice text s e) = jsSlice text s e := by
    intro s e
    exact jsTrim_of_no_ws _ fun c hc =>
      hws c (List.mem_of_mem_drop (List.mem_of_mem_take hc))
  have hslice_len : ∀ s e : Nat, (jsSlice text s e).length = min (e - s) (2400 - s) := by
    intro s e
    simp [jsSlice, hlen]
  unfold chunkText
  show chunkLoop text 1000 200 (by norm_num) 0 0 [] = _
  rw [chunkLoop_step text 1000 200 (by norm_num) 0 0 [] (by omega) (by simp) (by norm_num)]
  simp only [htrim, hslice_len, hlen]
  norm_num [chunkNextStart, Int.toNat_ofNat]
  show chunkLoop text 1000 200 (by norm_num) 800 1 [jsSlice text 0 1000] = _
  rw [chunkLoop_step text 1000 200 (by norm_num) 800 1 [jsSlice text 0 1000] (by omega)
    (by simp) (by norm_num)]
  simp only [htrim, hslice_len, hlen]
  norm_num [chunkNextStart, Int.toNat_ofNat]
  show chunkLoop text 1000 200 (by norm_num) 1600 2
    [jsSlice text 0 1000, jsSlice text 800 1800] = _
  rw [chunkLoop_step text 1000 200 (by norm_num) 1600 2 [jsSlice text 0 1000, jsSlice text 800 1800]
    (by omega) (by simp) (by norm_num)]
  simp only [htrim, hslice_len, hlen]
  norm_num [chunkNextStart, Int.toNat_ofNat]
  show chunkLoop text 1000 200 (by norm_num) 2200 3
    [jsSlice text 0 1000, jsSlice text 800 1800, jsSlice text 1600 2400] = _
  rw [chunkLoop_step text 1000 200 (by norm_num) 2200 3
    [jsSlice text 0 1000, jsSlice text 800 1800, jsSlice text 1600 2400] (by omega)
    (by simp) (by norm_num)]
  simp only [htrim, hslice_len, hlen]
  norm_num [chunkNextStart, Int.toNat_ofNat]

theorem chunkNextStart_gt (start e overlap : Nat) (h : start < e) :
    start < chunkNextStart start e overlap := by
  unfold chunkNextStart
  simp only []
  split
  · exact h
  · next hlt =>
    push_neg at hlt
    omega

theorem chunkLoop_step_inlined (text : List Char) (cs ov : Nat) (hcs : 0 < cs)
    (start iter : Nat) (chunks : List (List Char))
    (h1 : start < text.length) (h2 : chunks.length < 10000) (h3 : iter + 1 ≤ 20000) :
    chunkLoop text cs ov hcs start iter chunks =
      if chunkNextStart start (min (start + cs) text.length) ov ≥ text.length then
        (if 0 < (jsTrim (jsSlice text start (min (start + cs) text.length))).length then
          chunks ++ [jsTrim (jsSlice text start (min (start + cs) text.length))] else chunks)
      else
        chunkLoop text cs ov hcs (chunkNextStart start (min (start + cs) text.length) ov)
          (iter + 1)
          (if 0 < (jsTrim (jsSlice text start (min (start + cs) text.length))).length then
            chunks ++ [jsTrim (jsSlice text start (min (start + cs) text.length))] else chunks) := by
  rw [chunkLoop, dif_pos ⟨h1, h2⟩, if_neg (by omega)]

theorem dropWhile_length_le (p : Char → Bool) (l : List Char) :
    (l.dropWhile p).length ≤ l.length := by
  induction l with
  | nil => simp
  | cons a l ih =>
    rw [List.dropWhile_cons]
    split
    · exact le_trans ih (by simp)
    · simp

theorem jsTrim_length_le (l : List Char) : (jsTrim l).length ≤ l.length := by
  unfold jsTrim
  calc ((l.dropWhile jsWhitespace).reverse.dropWhile jsWhitespace).reverse.length
      = ((l.dropWhile jsWhitespace).reverse.dropWhile jsWhitespace).length := by
        rw [List.length_reverse]
    _ ≤ (l.dropWhile jsWhitespace).reverse.length := dropWhile_length_le _ _
    _ = (l.dropWhile jsWhitespace).length := by rw [List.length_reverse]
    _ ≤ l.length := dropWhile_length_le _ _

theorem chunk_piece_length_le (text : List Char) (cs : Nat) (start : Nat) :
    (jsTrim (jsSlice text start (min (start + cs) text.length))).length ≤ cs := by
  calc (jsTrim (jsSlice text start (min (start + cs) text.length))).length
      ≤ (jsSlice text start (min (start + cs) text.length)).length := jsTrim_length_le _
    _ ≤ cs := by
        unfold jsSlice
        simp only [List.length_take, List.length_drop]
        omega

theorem chunkLoop_props (text : List Char) (cs ov : Nat) (hcs : 0 < cs) :
    ∀ (start iter : Nat) (chunks : List (List Char)),
      chunks.length ≤ 10000 → (∀ ch ∈ chunks, ch ≠ [] ∧ ch.length ≤ cs) →
      (chunkLoop text cs ov hcs start iter chunks).length ≤ 10000 ∧
      ∀ ch ∈ chunkLoop text cs ov hcs start iter chunks, ch ≠ [] ∧ ch.length ≤ cs := by
  suffices H : ∀ (m start iter : Nat) (chunks : List (List Char)),
      text.length - start ≤ m → chunks.length ≤ 10000 →
      (∀ ch ∈ chunks, ch ≠ [] ∧ ch.length ≤ cs) →
      (chunkLoop text cs ov hcs start iter chunks).length ≤ 10000 ∧
      ∀ ch ∈ chunkLoop text cs ov hcs start iter chunks, ch ≠ [] ∧ ch.length ≤ cs by
    exact fun start iter chunks h1 h2 => H (text.length - start) start iter chunks le_rfl h1 h2
  intro m
  induction m with
  | zero =>
    intro start iter chunks hm h1 h2
    rw [chunkLoop_stop text cs ov hcs start iter chunks (by omega)]
    exact ⟨h1, h2⟩
  | succ m ih =>
    intro start iter chunks hm h1 h2
    by_cases hg : start < text.length ∧ chunks.length < 10000
    · by_cases hiter : iter + 1 > 20000
      · rw [chunkLoop, dif_pos hg, if_pos hiter]
        exact ⟨h1, h2⟩
      · rw [chunkLoop_step_inlined text cs ov hcs start iter chunks hg.1 hg.2 (by omega)]
        have hchunks' :
            (if 0 < (jsTrim (jsSlice text start (min (start + cs) text.length))).length then
              chunks ++ [jsTrim (jsSlice text start (min (start + cs) text.length))]
            else chunks).length ≤ 10000 ∧
            ∀ ch ∈ (if 0 < (jsTrim (jsSlice text start (min (start + cs) text.length))).length
              then chunks ++ [jsTrim (jsSlice text start (min (start + cs) text.length))]
              else chunks), ch ≠ [] ∧ ch.length ≤ cs := by
          split
          · next hpush =>
            constructor
            · simp only [List.length_append, List.length_cons, List.length_nil]
              omega
            · intro ch hch
              rcases List.mem_append.mp hch with hin | hnew
              · exact h2 ch hin
              · rw [List.mem_singleton.mp hnew]
                exact ⟨List.ne_nil_of_length_pos hpush, chunk_piece_length_le text cs start⟩
          · exact ⟨h1, h2⟩
        split
        · exact hchunks'
        · next hcont =>
          have hlt : start < min (start + cs) text.length := lt_min (by omega) hg.1
          have hadv : start < chunkNextStart start (min (start + cs) text.length) ov :=
            chunkNextStart_gt start _ ov hlt
          exact ih (chunkNextStart start (min (start + cs) text.length) ov) (iter + 1) _
            (by omega) hchunks'.1 hchunks'.2
    · rw [chunkLoop_stop text cs ov hcs start iter chunks hg]
      exact ⟨h1, h2⟩

theorem sanitizedOverlap_lt (c o : Int) : sanitizedOverlap c o < sanitizedChunkSize c := by
  have hcs : 0 < sanitizedChunkSize c := by unfold sanitizedChunkSize; split <;> omega
  unfold sanitizedOverlap
  by_cases ho : o < 0
  · simp only [ho, if_true]
    split
    · exact Nat.div_lt_self hcs (by norm_num)
    · next h => push_neg at h; omega
  · simp only [ho, if_false]
    split
    · exact Nat.div_lt_self hcs (by norm_num)
    · next h => push_neg at h; omega

/-- C1 (amended): for a 2,400-character input with no whitespace characters
and the default parameters `chunkSize = 1000`, `overlap = 200`, `chunkText`
returns exactly 4 chunks: the chunks starting at offsets 0, 800 and 1600,
plus a trailing chunk that re-emits the final 200 characters starting at
offset 2200 (the loop's final-advance check runs after `start` has already
been moved to `end - overlap`). -/
theorem chunkText_2400_scenario (text : List Char) (hlen : text.length = 2400)
    (hws : ∀ c ∈ text, jsWhitespace c = false) :
    chunkText text 1000 200 = [jsSlice text 0 1000, jsSlice text 800 1800,
      jsSlice text 1600 2400, jsSlice text 2200 2400] :=
  chunkText_2400_aux text hlen hws

/-- Counterexample to C1 as stated: on the concrete 2,400-character input
`replicate 2400 'a'` with the default parameters, `chunkText` does not
return 3 chunks (it returns 4). -/
theorem chunkText_2400_cex :
    (chunkText (List.replicate 2400 'a') 1000 200).length ≠ 3 := by
  have h := chunkText_2400_aux (List.replicate 2400 'a') (by rw [List.length_replicate])
    (fun c hc => by rw [List.eq_of_mem_replicate hc]; rfl)
  rw [h]
  simp only [List.length_cons, List.length_nil]
  omega

/-- Witness for the amended C1 at the concrete input `replicate 2400 'a'`. -/
theorem chunkText_2400_scenario_witness :
    chunkText (List.replicate 2400 'a') 1000 200 =
      [jsSlice (List.replicate 2400 'a') 0 1000, jsSlice (List.replicate 2400 'a') 800 1800,
       jsSlice (List.replicate 2400 'a') 1600 2400,
       jsSlice (List.replicate 2400 'a') 2200 2400] :=
  chunkText_2400_scenario (List.replicate 2400 'a') (by rw [List.length_replicate])
    (fun c hc => by rw [List.eq_of_mem_replicate hc]; rfl)

/-- C10: `chunkText` is total (this model of its loop is a terminating
function for every input and parameter choice), its parameter sanitization
leaves a positive chunk size that strictly exceeds the overlap (which is
what makes `start` strictly increase every iteration), every returned chunk
is non-empty with at most `chunkSize` characters, and at most 10,000 chunks
are ever returned. -/
theorem chunkText_spec (text : List Char) (c o : Int) :
    (chunkText text c o).length ≤ 10000 ∧
    (∀ ch ∈ chunkText text c o, ch ≠ [] ∧ ch.length ≤ sanitizedChunkSize c) ∧
    0 < sanitizedChunkSize c ∧ sanitizedOverlap c o < sanitizedChunkSize c := by
  have hcs : 0 < sanitizedChunkSize c := by unfold sanitizedChunkSize; split <;> omega
  have hprops := chunkLoop_props text (sanitizedChunkSize c) (sanitizedOverlap c o) hcs 0 0 []
    (by simp) (fun ch hch => absurd hch (List.not_mem_nil ch))
  exact ⟨hprops.1, hprops.2, hcs, sanitizedOverlap_lt c o⟩

/-- Witness for C10 at the concrete 2,400-character input
`replicate 2400 'a'` with the default parameters: the chunk count is within
bounds, the first returned chunk is non-empty and within the sanitized
chunk size, and the sanitized parameters are well-formed. -/
theorem chunkText_spec_witness :
    (chunkText (List.replicate 2400 'a') 1000 200).length ≤ 10000 ∧
    (jsSlice (List.replicate 2400 'a') 0 1000 ≠ [] ∧
      (jsSlice (List.replicate 2400 'a') 0 1000).length ≤ sanitizedChunkSize 1000) ∧
    0 < sanitizedChunkSize 1000 ∧ sanitizedOverlap 1000 200 < sanitizedChunkSize 1000 := by
  have hmem : jsSlice (List.replicate 2400 'a') 0 1000 ∈
      chunkText (List.replicate 2400 'a') 1000 200 := by
    rw [chunkText_2400_aux (List.replicate 2400 'a') (by rw [List.length_replicate])
      (fun c hc => by rw [List.eq_of_mem_replicate hc]; rfl)]
    exact List.mem_cons_self _ _
  exact ⟨(chunkText_spec (List.replicate 2400 'a') 1000 200).1,
    (chunkText_spec (List.replicate 2400 'a') 1000 200).2.1 _ hmem,
    (chunkText_spec (List.replicate 2400 'a') 1000 200).2.2.1,
    (chunkText_spec (List.replicate 2400 'a') 1000 200).2.2.2⟩
